import Mathlib

/-!
# JBIG2 decoder core: shallow embedding and verification

The unidoc repository embeds a JBIG2 bi-level image decoder (segment model,
MQ arithmetic decoder, generic/symbol/text/halftone region reconstruction).
The decoder sources are not present in this source snapshot; only their test
vectors are.  Following the specification (spec.md sections 3, 4.1-4.8, 7, 8),
this file models the data structures and algorithms the spec describes and
proves the spec's testable properties about that model.  Definitions whose
doc comments start with "Modelled from the spec:" reconstruct components whose
source files are absent, faithful to the spec's wording and checked against
the concrete byte-level test vectors that are present in the repository.
-/

namespace JBIG2

/-! ## Bitmaps and page composition (spec sections 3 "Bitmap", "Page", 4.8) -/

/-- Modelled from the spec: a Bitmap is a 2D grid of 1-bit pixels with explicit
width and height; out-of-bounds reads during composition return 0 (background).
The decoder source file holding the bitmap type is absent from the snapshot. -/
structure Bitmap where
  width : Nat
  height : Nat
  pixels : List (List Bool)
  deriving Repr, DecidableEq

/-- Out-of-bounds reads return `false` (background), per the Bitmap invariant. -/
def Bitmap.get (b : Bitmap) (x y : Nat) : Bool :=
  (b.pixels.getD y []).getD x false

/-- An all-background (blank) bitmap of the given dimensions. -/
def Bitmap.blank (w h : Nat) : Bitmap :=
  ⟨w, h, List.replicate h (List.replicate w false)⟩

/-- Modelled from the spec: the external combination operators a region segment
may use when composited onto the page bitmap (OR, AND, XOR, XNOR or REPLACE). -/
inductive CombOp where
  | or | and | xor | xnor | replace
  deriving Repr, DecidableEq

/-- Pixel-level semantics of a combination operator: old page pixel on the
left, incoming region pixel on the right. -/
def applyCombOp : CombOp → Bool → Bool → Bool
  | .or, a, b => a || b
  | .and, a, b => a && b
  | .xor, a, b => xor a b
  | .xnor, a, b => !(xor a b)
  | .replace, _, b => b

/-- A decoded region bitmap together with its placement rectangle on the page
and its external combination operator. -/
structure Region where
  bitmap : Bitmap
  x : Nat
  y : Nat
  op : CombOp
  deriving Repr, DecidableEq

/-- Whether page coordinate `(x, y)` falls inside the region's placement
rectangle. -/
def Region.covers (r : Region) (x y : Nat) : Bool :=
  decide (r.x ≤ x) && decide (x < r.x + r.bitmap.width) &&
  decide (r.y ≤ y) && decide (y < r.y + r.bitmap.height)

/-- The value of page pixel `(x, y)` after compositing region `r` onto `page`:
inside the placement rectangle the combination operator merges the region pixel
with the old page pixel; outside, the page pixel is untouched. -/
def compositePixel (page : Bitmap) (r : Region) (x y : Nat) : Bool :=
  if r.covers x y then
    applyCombOp r.op (page.get x y) (r.bitmap.get (x - r.x) (y - r.y))
  else
    page.get x y

/-- Modelled from the spec: compositing a decoded region bitmap into the page
bitmap at the region's declared offset with its external combination operator
(spec 4.8).  The page keeps its dimensions; only pixels inside the region's
rectangle change. -/
def composite (page : Bitmap) (r : Region) : Bitmap :=
  ⟨page.width, page.height,
    (List.range page.height).map fun y =>
      (List.range page.width).map fun x => compositePixel page r x y⟩

/-- Two placement rectangles do not overlap: they are separated along the x
axis or along the y axis. -/
def rectDisjoint (r1 r2 : Region) : Prop :=
  r1.x + r1.bitmap.width ≤ r2.x ∨ r2.x + r2.bitmap.width ≤ r1.x ∨
  r1.y + r1.bitmap.height ≤ r2.y ∨ r2.y + r2.bitmap.height ≤ r1.y

instance (r1 r2 : Region) : Decidable (rectDisjoint r1 r2) := by
  unfold rectDisjoint; infer_instance

/-! ## Segment headers (spec sections 3 "Segment", 4.8, 6) -/

/-- Read one byte (as a `Nat` in `[0, 255]`) at absolute position `i`;
reading past the end of the buffer is an EOF error. -/
def readByte (data : List Nat) (i : Nat) : Except String Nat :=
  match data.get? i with
  | some b => .ok b
  | none => .error "EOF"

/-- Read a big-endian 32-bit unsigned integer at absolute position `i`. -/
def readU32 (data : List Nat) (i : Nat) : Except String Nat := do
  let b0 ← readByte data i
  let b1 ← readByte data (i + 1)
  let b2 ← readByte data (i + 2)
  let b3 ← readByte data (i + 3)
  pure (b0 * 16777216 + b1 * 65536 + b2 * 256 + b3)

/-- Modelled from the spec: a parsed segment header.  The spec (section 3
"Segment") lists segment number (uint32), type, referred-to segment numbers,
page association (1 or 4 bytes) and data length (uint32, with 0xFFFFFFFF as
the unknown-length sentinel).  The header-parsing source file is absent from
the snapshot; the byte layout is fixed by the test vectors kept in the
repository.  `dataStart` is the reader position immediately after the header,
i.e. the position of the first byte of the segment's data. -/
structure SegmentHeader where
  segmentNumber : Nat
  segType : Nat
  deferredNonRetain : Bool
  pageAssociationFieldSize : Bool
  rtSegmentNumbers : List Nat
  pageAssociation : Nat
  dataLength : Nat
  unknownLength : Bool
  dataStart : Nat
  deriving Repr, DecidableEq

/-- Segment type code of a symbol dictionary. -/
def tSymbolDictionary : Nat := 0

/-- Segment type codes of immediate generic regions — the only segment types
for which the unknown-data-length sentinel is allowed (spec 4.8: "unknown
length ... only applicable to immediate generic regions"). -/
def isImmediateGenericRegion (t : Nat) : Bool :=
  t = 38 || t = 39

/-- Parse the referred-to-segment count field starting at position `i`:
short form (top three bits at most 4) is one byte; the long form (top three
bits equal to 7) is a four-byte count followed by retain-flag bytes.
Returns the count and the position right after the field. -/
def parseReferredCount (data : List Nat) (i : Nat) : Except String (Nat × Nat) := do
  let b ← readByte data i
  if b / 32 ≤ 4 then
    pure (b / 32, i + 1)
  else if b / 32 = 7 then do
    let v ← readU32 data i
    let count := v % 536870912
    pure (count, i + 4 + (count + 8) / 8)
  else
    .error "invalid referred-to segment count"

/-- Byte width of each referred-to segment number: one byte while this
segment's number is at most 256, two while at most 65536, four otherwise. -/
def refNumberSize (segNum : Nat) : Nat :=
  if segNum ≤ 256 then 1 else if segNum ≤ 65536 then 2 else 4

/-- Read `count` referred-to segment numbers of byte width `size` starting at
position `i`. -/
def readRefNumbers (data : List Nat) (i size : Nat) : Nat → Except String (List Nat)
  | 0 => pure []
  | count + 1 => do
    let n ← match size with
      | 1 => readByte data i
      | 2 => do
        let b0 ← readByte data i
        let b1 ← readByte data (i + 1)
        pure (b0 * 256 + b1)
      | _ => readU32 data i
    let rest ← readRefNumbers data (i + size) size count
    pure (n :: rest)

/-- Scan a byte list for the first occurrence of the two-byte end-of-data
terminator `FF AC`, returning its index relative to the start of the list. -/
def scanMarker : List Nat → Nat → Option Nat
  | [], _ => none
  | [_], _ => none
  | a :: b :: rest, idx =>
    if a = 255 ∧ b = 172 then some idx else scanMarker (b :: rest) (idx + 1)

/-- Modelled from the spec: for an unknown-length immediate generic region the
decoder "must scan for the end-of-data marker rather than reading to EOF"
(spec section 8); the marker is the arithmetic end-of-data terminator
sequence, followed by the four-byte row count.  Returns the absolute index of
the terminator when present. -/
def findTerminator (data : List Nat) (i : Nat) : Option Nat :=
  (scanMarker (data.drop i) 0).map (· + i)

/-- Modelled from the spec: resolve the declared data-length field.  The
0xFFFFFFFF sentinel is a structural error on any segment type other than an
immediate generic region; on an immediate generic region the data extent runs
up to and including the end-of-data terminator and its row count, found by
scanning — never simply to the end of the input. -/
def resolveDataLength (segType lenField : Nat) (data : List Nat) (dataStart : Nat) :
    Except String (Nat × Bool) :=
  if lenField = 4294967295 then
    if isImmediateGenericRegion segType then
      match findTerminator data dataStart with
      | some p => .ok (p + 6 - dataStart, true)
      | none => .error "end-of-data terminator not found"
    else
      .error "unknown data length on a segment that is not a generic region"
  else
    .ok (lenField, false)

/-- The fixed byte fields of a segment header, before the data length is
resolved against the segment type. -/
structure RawHeader where
  segmentNumber : Nat
  flags : Nat
  rtSegmentNumbers : List Nat
  pageAssociation : Nat
  lenField : Nat
  dataStart : Nat
  deriving Repr, DecidableEq

/-- Modelled from the spec: parse the byte fields of one segment header at
absolute position `off` (sequential organization).  Fields in order: segment
number (4 bytes), flags byte (type in the low 6 bits, page-association size
in bit 6, deferred non-retain in bit 7), referred-to segment count and retain
flags, referred-to segment numbers, page association (1 or 4 bytes), data
length (4 bytes).  `dataStart` is the position right after the last header
byte. -/
def parseHeaderRaw (data : List Nat) (off : Nat) : Except String RawHeader := do
  let num ← readU32 data off
  let flags ← readByte data (off + 4)
  let (count, rtEnd) ← parseReferredCount data (off + 5)
  let refSize := refNumberSize num
  let refs ← readRefNumbers data rtEnd refSize count
  let pos := rtEnd + refSize * count
  let pageSize := if flags / 64 % 2 = 1 then 4 else 1
  let page ← if flags / 64 % 2 = 1 then readU32 data pos else readByte data pos
  let lenField ← readU32 data (pos + pageSize)
  pure { segmentNumber := num, flags := flags, rtSegmentNumbers := refs,
         pageAssociation := page, lenField := lenField,
         dataStart := pos + pageSize + 4 }

/-- Modelled from the spec: parse one segment header, resolving the declared
data-length field (including the unknown-length sentinel) against the segment
type. -/
def parseHeader (data : List Nat) (off : Nat) : Except String SegmentHeader := do
  let raw ← parseHeaderRaw data off
  let (len, unk) ← resolveDataLength (raw.flags % 64) raw.lenField data raw.dataStart
  pure { segmentNumber := raw.segmentNumber, segType := raw.flags % 64,
         deferredNonRetain := raw.flags / 128 % 2 = 1,
         pageAssociationFieldSize := raw.flags / 64 % 2 = 1,
         rtSegmentNumbers := raw.rtSegmentNumbers,
         pageAssociation := raw.pageAssociation,
         dataLength := len, unknownLength := unk, dataStart := raw.dataStart }

/-- The decoded result of a symbol dictionary segment: the new symbols it
decoded and the ordered symbols it exports downstream. -/
structure SymbolDictResult where
  newSymbols : List Bitmap
  exportedSymbols : List Bitmap
  deriving Repr, DecidableEq

/-- The position of the next segment header in sequential organization: the
first data byte plus the declared data length. -/
def nextSegmentOffset (h : SegmentHeader) : Nat :=
  h.dataStart + h.dataLength


/-! ## Symbol dictionary export walk (spec 4.5 step 3) -/

/-- Modelled from the spec: the run-length export-flag walk of a symbol
dictionary (spec 4.5 step 3).  `runs` is the sequence of decoded export run
lengths; starting with the export flag off, each run either skips or exports
the next `r` symbols of the concatenation of inherited and new symbols, and
the flag alternates after every run.  Running out of run lengths before the
walk covers all symbols is a decode error. -/
def exportWalk (symbols : List Bitmap) (total : Nat) :
    List Nat → Nat → Bool → Except String (List Bitmap)
  | runs, idx, exFlag =>
    if total ≤ idx then pure []
    else
      match runs with
      | [] => .error "export run length stream exhausted"
      | r :: rest => do
        let tailExports ← exportWalk symbols total rest (idx + r) (!exFlag)
        if exFlag then pure ((symbols.drop idx).take r ++ tailExports)
        else pure tailExports

/-- Modelled from the spec: compute a symbol dictionary segment result from
the export-flag walk over `[inherited symbols..., new symbols...]`; a walked
total different from the declared `amountOfExportedSymbols` is a hard decode
error (spec 4.5: "the total exported count must equal the declared export
amount — mismatch is a hard decode error"). -/
def computeExportedSymbols (inherited newSyms : List Bitmap) (runs : List Nat)
    (amountOfExportedSymbols : Nat) : Except String (List Bitmap) := do
  let ex ← exportWalk (inherited ++ newSyms) (inherited ++ newSyms).length runs 0 false
  if ex.length = amountOfExportedSymbols then pure ex
  else .error "exported symbol count does not match declared amount"

/-! ## Text region symbol instances (spec 4.6) -/

/-- Modelled from the spec: the per-instance placement loop of a text region
(spec 4.6).  Each decoded instance carries a symbol ID and a computed
placement position; an ID outside `[0, numAvailableSymbols)` is a hard
range-check error that stops the decode, otherwise the symbol bitmap is
composited onto the region bitmap (placement outside the region clips
rather than erroring).  Returns the finished region bitmap and the IDs
placed, in order. -/
def placeSymbolInstances (syms : List Bitmap) (op : CombOp) :
    List (Nat × Nat × Nat) → Bitmap → Except String (Bitmap × List Nat)
  | [], page => .ok (page, [])
  | (id, x, y) :: rest, page =>
    if id < syms.length then do
      let (bm, ids) ← placeSymbolInstances syms op rest
          (composite page ⟨syms.getD id (Bitmap.blank 0 0), x, y, op⟩)
      pure (bm, id :: ids)
    else
      .error "symbol ID out of range"


/-! ## MQ arithmetic decoder (spec 4.2, 4.1, 7(d)) -/

/-- Modelled from the spec: the standard 47-row probability-estimation table
shared by JBIG2 and JPEG2000, with columns Qe, NMPS, NLPS and SWITCH
(spec section 3 "MQ decoder context" and the glossary).  The MQ decoder
source file is absent from the snapshot. -/
def qeTable : List (Nat × Nat × Nat × Bool) := [
  (0x5601, 1, 1, true), (0x3401, 2, 6, false), (0x1801, 3, 9, false),
  (0x0AC1, 4, 12, false), (0x0521, 5, 29, false), (0x0221, 38, 33, false),
  (0x5601, 7, 6, true), (0x5401, 8, 14, false), (0x4801, 9, 14, false),
  (0x3801, 10, 14, false), (0x3001, 11, 17, false), (0x2401, 12, 18, false),
  (0x1C01, 13, 20, false), (0x1601, 29, 21, false), (0x5601, 15, 14, true),
  (0x5401, 16, 14, false), (0x5101, 17, 15, false), (0x4801, 18, 16, false),
  (0x3801, 19, 17, false), (0x3401, 20, 18, false), (0x3001, 21, 19, false),
  (0x2801, 22, 19, false), (0x2401, 23, 20, false), (0x2201, 24, 21, false),
  (0x1C01, 25, 22, false), (0x1801, 26, 23, false), (0x1601, 27, 24, false),
  (0x1401, 28, 25, false), (0x1201, 29, 26, false), (0x1101, 30, 27, false),
  (0x0AC1, 31, 28, false), (0x09C1, 32, 29, false), (0x08A1, 33, 30, false),
  (0x0521, 34, 31, false), (0x0441, 35, 32, false), (0x02A1, 36, 33, false),
  (0x0221, 37, 34, false), (0x0141, 38, 35, false), (0x0111, 39, 36, false),
  (0x0085, 40, 37, false), (0x0049, 41, 38, false), (0x0025, 42, 39, false),
  (0x0015, 43, 40, false), (0x0009, 44, 41, false), (0x0005, 45, 42, false),
  (0x0001, 45, 43, false), (0x5601, 46, 46, false)]

/-- Row of the probability-estimation table for a state index. -/
def qeAt (i : Nat) : Nat × Nat × Nat × Bool :=
  qeTable.getD i (0x5601, 46, 46, false)

/-- Modelled from the spec: MQ decoder state — interval register `A`
(16 bits), code register `C` (32 bits), bit counter `CT` and the byte
position into the coded byte buffer (spec 4.2). -/
structure MQDecoder where
  data : List Nat
  bp : Nat
  c : Nat
  a : Nat
  ct : Nat
  deriving Repr, DecidableEq

/-- One per-context probability state: index into the estimation table
(0..46) and the current more-probable-symbol bit. -/
structure MQContext where
  icx : Nat
  mps : Bool
  deriving Repr, DecidableEq

/-- Byte feeding: reading past the declared data length synthesizes 0xFF
bytes instead of failing (spec 7(d): "synthesize 0xFF per the BYTEIN
procedure rather than hard-fail"). -/
def mqByteAt (data : List Nat) (i : Nat) : Nat :=
  data.getD i 255

/-- Modelled from the spec: the BYTEIN procedure.  A 0xFF byte followed by a
byte of at least 0x90 signals end-of-data: the decoder stays on the 0xFF
byte and feeds a synthesized 0xFF (adding 0xFF00 to `C` with `CT = 8`);
a 0xFF followed by a smaller byte feeds the next byte shifted by 9 with
`CT = 7` (bit stuffing); otherwise the next byte is fed shifted by 8 with
`CT = 8`.  It is a total function: no input makes it fail. -/
def bytein (s : MQDecoder) : MQDecoder :=
  if mqByteAt s.data s.bp = 255 then
    if 143 < mqByteAt s.data (s.bp + 1) then
      { s with c := s.c + 65280, ct := 8 }
    else
      { s with bp := s.bp + 1, c := s.c + mqByteAt s.data (s.bp + 1) * 512, ct := 7 }
  else
    { s with bp := s.bp + 1, c := s.c + mqByteAt s.data (s.bp + 1) * 256, ct := 8 }

/-- Modelled from the spec: renormalization — double `A` and shift new bits
into `C` via BYTEIN until `A` has its high bit set again (spec 4.2 step 2).
`A` stays within 16 bits and `C` within 32; the fuel bounds the doubling,
which reaches the high bit in at most 16 steps. -/
def renorm : Nat → MQDecoder → MQDecoder
  | 0, s => s
  | fuel + 1, s =>
    let s1 := if s.ct = 0 then bytein s else s
    let s2 : MQDecoder :=
      { s1 with a := s1.a * 2 % 65536, c := s1.c * 2 % 4294967296, ct := s1.ct - 1 }
    if s2.a / 32768 = 1 then s2 else renorm fuel s2

/-- Modelled from the spec: `DecodeBit` — look up `{Qe, state}` for the
context, compare the high bits of `C` against `Qe`, branch into the MPS or
LPS exchange path with renormalization, and update the context's state via
the NMPS/NLPS columns, flipping the MPS bit on SWITCH-marked transitions
(spec 4.2).  A pure function of the byte stream position and the context
state; always returns a bit. -/
def decodeBit (s : MQDecoder) (cxs : List MQContext) (label : Nat) :
    Bool × MQDecoder × List MQContext :=
  let cx := cxs.getD label ⟨0, false⟩
  let q := qeAt cx.icx
  let qe := q.1
  let nmps := q.2.1
  let nlps := q.2.2.1
  let sw := q.2.2.2
  let a1 := s.a - qe
  if s.c / 65536 < qe then
    if a1 < qe then
      (cx.mps, renorm 16 { s with a := qe }, cxs.set label ⟨nmps, cx.mps⟩)
    else
      (!cx.mps, renorm 16 { s with a := qe },
        cxs.set label ⟨nlps, if sw then !cx.mps else cx.mps⟩)
  else
    let s1 : MQDecoder := { s with c := s.c - qe * 65536, a := a1 }
    if a1 / 32768 = 1 then
      (cx.mps, s1, cxs)
    else
      if a1 < qe then
        (!cx.mps, renorm 16 s1,
          cxs.set label ⟨nlps, if sw then !cx.mps else cx.mps⟩)
      else
        (cx.mps, renorm 16 s1, cxs.set label ⟨nmps, cx.mps⟩)

/-- Modelled from the spec: INITDEC — load the first byte into `C`, feed one
byte, then align, leaving `A = 0x8000`. -/
def initDec (data : List Nat) : MQDecoder :=
  let s0 : MQDecoder := ⟨data, 0, mqByteAt data 0 * 65536, 0, 0⟩
  let s1 := bytein s0
  { s1 with c := s1.c * 128 % 4294967296, ct := s1.ct - 7, a := 32768 }

/-! ## Generic region decoder (spec 4.3) -/

/-- Pixel read on the already-decoded rows: coordinates off the bitmap
(negative, or beyond a decoded row) read as 0. -/
def gridGet (rows : List (List Bool)) (x y : Int) : Bool :=
  if x < 0 ∨ y < 0 then false
  else (rows.getD y.toNat []).getD x.toNat false

/-- Build the context value for the pixel at `(x, y)` from the given
neighborhood points (relative coordinates), MSB first: points on previous
rows read from the decoded rows, points on the current row read from the
partial row decoded so far, and anything out of bounds reads 0. -/
def ctxBits (rows : List (List Bool)) (cur : List Bool) (x y : Nat)
    (pts : List (Int × Int)) : Nat :=
  pts.foldl
    (fun acc q =>
      let px : Int := (x : Int) + q.1
      let b :=
        if q.2 = 0 then
          (if 0 ≤ px then cur.getD px.toNat false else false)
        else gridGet rows px ((y : Int) + q.2)
      acc * 2 + (if b then 1 else 0)) 0

/-- Modelled from the spec: the fixed neighborhood patterns of generic
templates 0-3 — template 0 with 16 context pixels (4 adaptive), templates
1-3 with progressively smaller neighborhoods and one adaptive pixel
(spec 4.3).  The adaptive points are appended to the fixed pattern. -/
def templatePoints (tmpl : Nat) (atPixels : List (Int × Int)) : List (Int × Int) :=
  (match tmpl with
    | 0 => [((-1 : Int), (-2 : Int)), (0, -2), (1, -2),
            (-2, -1), (-1, -1), (0, -1), (1, -1), (2, -1),
            (-4, 0), (-3, 0), (-2, 0), (-1, 0)]
    | 1 => [((-1 : Int), (-2 : Int)), (0, -2), (1, -2), (2, -2),
            (-2, -1), (-1, -1), (0, -1), (1, -1), (2, -1),
            (-3, 0), (-2, 0), (-1, 0)]
    | 2 => [((-1 : Int), (-2 : Int)), (0, -2), (1, -2),
            (-2, -1), (-1, -1), (0, -1), (1, -1),
            (-2, 0), (-1, 0)]
    | _ => [((-3 : Int), (-1 : Int)), (-2, -1), (-1, -1), (0, -1), (1, -1),
            (-4, 0), (-3, 0), (-2, 0), (-1, 0)]) ++ atPixels

/-- The distinguished context used for the per-row typical-prediction (TPGDON)
bit of each template. -/
def tpgdonContext (tmpl : Nat) : Nat :=
  match tmpl with
  | 0 => 0x9B25
  | 1 => 0x0795
  | 2 => 0x00E5
  | _ => 0x0195

/-- Parameters of a generic-region decode: dimensions, template selector,
adaptive-pixel offsets and the typical-prediction flag (spec 4.3). -/
structure GenericRegionParams where
  width : Nat
  height : Nat
  template : Nat
  atPixels : List (Int × Int)
  tpgdon : Bool
  deriving Repr, DecidableEq

/-- Modelled from the spec: the generic-region decoder — for each pixel in
raster order, build a context value from the template neighborhood of
already-decoded pixels plus the adaptive pixels, decode one bit via the MQ
decoder with that context, and write the pixel; when TPGDON is set, a
per-row typical-prediction bit (decoded with a fixed special context)
toggles whether the entire row duplicates the previous row (spec 4.3).
The contexts are freshly initialized for the decode. -/
def decodeGenericRegion (p : GenericRegionParams) (data : List Nat) : Bitmap :=
  let pts := templatePoints p.template p.atPixels
  let cxs0 : List MQContext := List.replicate 65536 ⟨0, false⟩
  let final :=
    (List.range p.height).foldl
      (fun (acc : List (List Bool) × MQDecoder × List MQContext × Bool) y =>
        let rows := acc.1
        let sIn := acc.2.1
        let cxsIn := acc.2.2.1
        let ltpIn := acc.2.2.2
        let afterTp :=
          if p.tpgdon then
            let r := decodeBit sIn cxsIn (tpgdonContext p.template)
            (r.2.1, r.2.2, xor ltpIn r.1)
          else (sIn, cxsIn, ltpIn)
        if afterTp.2.2 then
          (rows ++ [rows.getD (y - 1) (List.replicate p.width false)],
            afterTp.1, afterTp.2.1, afterTp.2.2)
        else
          let rowRes :=
            (List.range p.width).foldl
              (fun (racc : List Bool × MQDecoder × List MQContext) x =>
                let cv := ctxBits rows racc.1 x y pts
                let r := decodeBit racc.2.1 racc.2.2 cv
                (racc.1 ++ [r.1], r.2.1, r.2.2))
              ([], afterTp.1, afterTp.2.1)
          (rows ++ [rowRes.1], rowRes.2.1, rowRes.2.2, afterTp.2.2))
      ([], initDec data, cxs0, false)
  ⟨p.width, p.height, final.1⟩

/-- Re-decoding the same byte buffer with identically (freshly) initialized
context state: both components run the full decode from scratch. -/
def decodeGenericRegionTwice (p : GenericRegionParams) (data : List Nat) :
    Bitmap × Bitmap :=
  (decodeGenericRegion p data, decodeGenericRegion p data)


/-! ## Bit-level reading, standard Huffman tables and the MMR coder
(spec 4.1, 4.5 "huffman vs arithmetic coding", 4.7) -/

/-- Bit `i` (MSB first within each byte) of the byte buffer; bits past the
end read 0. -/
def bitAt (data : List Nat) (i : Nat) : Nat :=
  data.getD (i / 8) 0 / 2 ^ (7 - i % 8) % 2

/-- Value of `n` bits MSB first starting at bit position `pos`. -/
def readBits (data : List Nat) (pos n : Nat) : Nat :=
  (List.range n).foldl (fun acc k => acc * 2 + bitAt data (pos + k)) 0

/-- Decode one code from a code table (explicit code bit lists with payloads)
by reading bits until a code matches; the fuel bounds the code length. -/
def matchCode {α : Type} (tbl : List (List Nat × α)) (data : List Nat) :
    Nat → Nat → List Nat → Except String (α × Nat)
  | 0, _, _ => .error "code too long"
  | fuel + 1, pos, acc =>
    let acc2 := acc ++ [bitAt data pos]
    match tbl.find? (fun e => e.1 == acc2) with
    | some e => .ok (e.2, pos + 1)
    | none => matchCode tbl data fuel (pos + 1) acc2

/-- Modelled from the spec: standard Huffman table B.1 (used for bitmap
sizes, aggregate instance counts and export run lengths).  Each line is a
code bit list with `some (rangeLen, rangeLow)`, or `none` for OOB.  The
table-driven Huffman decode source is absent from the snapshot. -/
def tableB1 : List (List Nat × Option (Nat × Int)) :=
  [([0], some (4, 0)), ([1, 0], some (8, 16)), ([1, 1, 0], some (16, 272)),
   ([1, 1, 1], some (32, 65808))]

/-- Modelled from the spec: standard Huffman table B.2 (symbol width deltas;
ends a height class with its OOB code). -/
def tableB2 : List (List Nat × Option (Nat × Int)) :=
  [([0], some (0, 0)), ([1, 0], some (0, 1)), ([1, 1, 0], some (0, 2)),
   ([1, 1, 1, 0], some (3, 3)), ([1, 1, 1, 1, 0], some (6, 11)),
   ([1, 1, 1, 1, 1, 0], some (32, 75)), ([1, 1, 1, 1, 1, 1], none)]

/-- Modelled from the spec: standard Huffman table B.4 (height class
deltas). -/
def tableB4 : List (List Nat × Option (Nat × Int)) :=
  [([0], some (0, 1)), ([1, 0], some (0, 2)), ([1, 1, 0], some (0, 3)),
   ([1, 1, 1, 0], some (3, 4)), ([1, 1, 1, 1, 0], some (6, 12)),
   ([1, 1, 1, 1, 1], some (32, 76))]

/-- Decode one value from a standard Huffman table: the matched line's range
low plus its range field, or `none` for the out-of-band value. -/
def decodeHuffInt (tbl : List (List Nat × Option (Nat × Int))) (data : List Nat)
    (pos : Nat) : Except String (Option Int × Nat) := do
  let (payload, p2) ← matchCode tbl data 32 pos []
  match payload with
  | none => pure (none, p2)
  | some (rangeLen, rangeLow) =>
    pure (some (rangeLow + (readBits data p2 rangeLen : Nat)), p2 + rangeLen)

/-- The explicit bit list of a code given as (bit length, value). -/
def codeBits (len value : Nat) : List Nat :=
  (List.range len).map (fun k => value / 2 ^ (len - 1 - k) % 2)

/-- Turn (bit length, code value, run length) triples into a code table. -/
def runTableOf (raw : List (Nat × Nat × Nat)) : List (List Nat × Nat) :=
  raw.map (fun e => (codeBits e.1 e.2.1, e.2.2))

/-- Modelled from the spec: the T.4 white run-length codes used by the MMR
coder in horizontal mode — terminating codes 0..63, makeup codes, and the
shared extended makeup codes. -/
def whiteCodes : List (List Nat × Nat) := runTableOf [
  (8, 0x35, 0), (6, 0x07, 1), (4, 0x7, 2), (4, 0x8, 3), (4, 0xB, 4), (4, 0xC, 5),
  (4, 0xE, 6), (4, 0xF, 7), (5, 0x13, 8), (5, 0x14, 9), (5, 0x07, 10), (5, 0x08, 11),
  (6, 0x08, 12), (6, 0x03, 13), (6, 0x34, 14), (6, 0x35, 15), (6, 0x2A, 16), (6, 0x2B, 17),
  (7, 0x27, 18), (7, 0x0C, 19), (7, 0x08, 20), (7, 0x17, 21), (7, 0x03, 22), (7, 0x04, 23),
  (7, 0x28, 24), (7, 0x2B, 25), (7, 0x13, 26), (7, 0x24, 27), (7, 0x18, 28), (8, 0x02, 29),
  (8, 0x03, 30), (8, 0x1A, 31), (8, 0x1B, 32), (8, 0x12, 33), (8, 0x13, 34), (8, 0x14, 35),
  (8, 0x15, 36), (8, 0x16, 37), (8, 0x17, 38), (8, 0x28, 39), (8, 0x29, 40), (8, 0x2A, 41),
  (8, 0x2B, 42), (8, 0x2C, 43), (8, 0x2D, 44), (8, 0x04, 45), (8, 0x05, 46), (8, 0x0A, 47),
  (8, 0x0B, 48), (8, 0x52, 49), (8, 0x53, 50), (8, 0x54, 51), (8, 0x55, 52), (8, 0x24, 53),
  (8, 0x25, 54), (8, 0x58, 55), (8, 0x59, 56), (8, 0x5A, 57), (8, 0x5B, 58), (8, 0x4A, 59),
  (8, 0x4B, 60), (8, 0x32, 61), (8, 0x33, 62), (8, 0x34, 63),
  (5, 0x1B, 64), (5, 0x12, 128), (6, 0x17, 192), (7, 0x37, 256), (8, 0x36, 320),
  (8, 0x37, 384), (8, 0x64, 448), (8, 0x65, 512), (8, 0x68, 576), (8, 0x67, 640),
  (9, 0xCC, 704), (9, 0xCD, 768), (9, 0xD2, 832), (9, 0xD3, 896), (9, 0xD4, 960),
  (9, 0xD5, 1024), (9, 0xD6, 1088), (9, 0xD7, 1152), (9, 0xD8, 1216), (9, 0xD9, 1280),
  (9, 0xDA, 1344), (9, 0xDB, 1408), (9, 0x98, 1472), (9, 0x99, 1536), (9, 0x9A, 1600),
  (6, 0x18, 1664), (9, 0x9B, 1728),
  (11, 0x8, 1792), (11, 0xC, 1856), (11, 0xD, 1920), (12, 0x12, 1984), (12, 0x13, 2048),
  (12, 0x14, 2112), (12, 0x15, 2176), (12, 0x16, 2240), (12, 0x17, 2304), (12, 0x1C, 2368),
  (12, 0x1D, 2432), (12, 0x1E, 2496), (12, 0x1F, 2560)]

/-- Modelled from the spec: the T.4 black run-length codes used by the MMR
coder in horizontal mode — terminating codes 0..63, makeup codes, and the
shared extended makeup codes. -/
def blackCodes : List (List Nat × Nat) := runTableOf [
  (10, 0x37, 0), (3, 0x2, 1), (2, 0x3, 2), (2, 0x2, 3), (3, 0x3, 4), (4, 0x3, 5),
  (4, 0x2, 6), (5, 0x3, 7), (6, 0x5, 8), (6, 0x4, 9), (7, 0x4, 10), (7, 0x5, 11),
  (7, 0x7, 12), (8, 0x4, 13), (8, 0x7, 14), (9, 0x18, 15), (10, 0x17, 16), (10, 0x18, 17),
  (10, 0x8, 18), (11, 0x67, 19), (11, 0x68, 20), (11, 0x6C, 21), (11, 0x37, 22),
  (11, 0x28, 23), (11, 0x17, 24), (11, 0x18, 25), (12, 0xCA, 26), (12, 0xCB, 27),
  (12, 0xCC, 28), (12, 0xCD, 29), (12, 0x68, 30), (12, 0x69, 31), (12, 0x6A, 32),
  (12, 0x6B, 33), (12, 0xD2, 34), (12, 0xD3, 35), (12, 0xD4, 36), (12, 0xD5, 37),
  (12, 0xD6, 38), (12, 0xD7, 39), (12, 0x6C, 40), (12, 0x6D, 41), (12, 0xDA, 42),
  (12, 0xDB, 43), (12, 0x54, 44), (12, 0x55, 45), (12, 0x56, 46), (12, 0x57, 47),
  (12, 0x64, 48), (12, 0x65, 49), (12, 0x52, 50), (12, 0x53, 51), (12, 0x24, 52),
  (12, 0x37, 53), (12, 0x38, 54), (12, 0x27, 55), (12, 0x28, 56), (12, 0x58, 57),
  (12, 0x59, 58), (12, 0x2B, 59), (12, 0x2C, 60), (12, 0x5A, 61), (12, 0x66, 62),
  (12, 0x67, 63),
  (10, 0xF, 64), (12, 0xC8, 128), (12, 0xC9, 192), (12, 0x5B, 256), (12, 0x33, 320),
  (12, 0x34, 384), (12, 0x35, 448), (13, 0x6C, 512), (13, 0x6D, 576), (13, 0x4A, 640),
  (13, 0x4B, 704), (13, 0x4C, 768), (13, 0x4D, 832), (13, 0x72, 896), (13, 0x73, 960),
  (13, 0x74, 1024), (13, 0x75, 1088), (13, 0x76, 1152), (13, 0x77, 1216), (13, 0x52, 1280),
  (13, 0x53, 1344), (13, 0x54, 1408), (13, 0x55, 1472), (13, 0x5A, 1536), (13, 0x5B, 1600),
  (13, 0x64, 1664), (13, 0x65, 1728),
  (11, 0x8, 1792), (11, 0xC, 1856), (11, 0xD, 1920), (12, 0x12, 1984), (12, 0x13, 2048),
  (12, 0x14, 2112), (12, 0x15, 2176), (12, 0x16, 2240), (12, 0x17, 2304), (12, 0x1C, 2368),
  (12, 0x1D, 2432), (12, 0x1E, 2496), (12, 0x1F, 2560)]

/-- The T.6 two-dimensional mode codes: 0 = V0, 1 = VR1, 2 = VR2, 3 = VR3,
4 = VL1, 5 = VL2, 6 = VL3, 7 = horizontal, 8 = pass. -/
def modeCodes : List (List Nat × Nat) :=
  [([1], 0), ([0, 1, 1], 1), ([0, 0, 0, 0, 1, 1], 2), ([0, 0, 0, 0, 0, 1, 1], 3),
   ([0, 1, 0], 4), ([0, 0, 0, 0, 1, 0], 5), ([0, 0, 0, 0, 0, 1, 0], 6),
   ([0, 0, 1], 7), ([0, 0, 0, 1], 8)]

/-- The positions where the pixel color changes within a row (the changing
elements of the two-dimensional coding model; the pixel before a row is
white). -/
def transitionsOf (row : List Bool) : List Nat :=
  (List.range row.length).filter
    (fun p => row.getD p false != (if p = 0 then false else row.getD (p - 1) false))

/-- The first changing element of the reference row strictly right of `a0`
with color opposite to the current color (the row width when none). -/
def findB1 (ref : List Bool) (w : Nat) (a0 : Int) (color : Bool) : Nat :=
  match (transitionsOf ref).find?
      (fun (p : Nat) => decide (a0 < (p : Int)) && (ref.getD p false != color)) with
  | some p => p
  | none => w

/-- The next changing element of the reference row after `b1` (the row width
when none). -/
def findB2 (ref : List Bool) (w : Nat) (b1 : Nat) : Nat :=
  match (transitionsOf ref).find? (fun q => decide (b1 < q)) with
  | some q => q
  | none => w

/-- Decode one run length of the given color: makeup codes accumulate until a
terminating code below 64 ends the chain. -/
def decodeRun (color : Bool) (data : List Nat) : Nat → Nat → Except String (Nat × Nat)
  | 0, _ => .error "run chain too long"
  | fuel + 1, pos => do
    let (r, p2) ← matchCode (if color then blackCodes else whiteCodes) data 14 pos []
    if r < 64 then pure (r, p2)
    else do
      let (r2, p3) ← decodeRun color data fuel p2
      pure (r + r2, p3)

/-- Decode one MMR row of width `w` against the reference row, starting at
bit position `pos`: vertical modes place the next color change relative to
the reference row's changing elements, horizontal mode reads two explicit
run lengths, and pass mode skips past a pair of reference changes. -/
def mmrRowStep (data : List Nat) (ref : List Bool) (w : Nat) :
    Nat → Nat → List Bool → Bool → Int → Except String (List Bool × Nat)
  | 0, _, _, _, _ => .error "mmr row fuel exhausted"
  | fuel + 1, pos, cur, color, a0 =>
    if w ≤ cur.length then pure (cur.take w, pos)
    else do
      let (mode, p2) ← matchCode modeCodes data 10 pos []
      let b1 := findB1 ref w a0 color
      let b2 := findB2 ref w b1
      if mode = 8 then
        let fillTo := min b2 w
        let cur2 := cur ++ List.replicate (fillTo - cur.length) color
        mmrRowStep data ref w fuel p2 cur2 color (fillTo : Int)
      else if mode = 7 then do
        let (r1, p3) ← decodeRun color data 16 p2
        let (r2, p4) ← decodeRun (!color) data 16 p3
        let start := cur.length
        let fill1 := min (start + r1) w
        let fill2 := min (fill1 + r2) w
        let cur2 := cur ++ List.replicate (fill1 - start) color ++
          List.replicate (fill2 - fill1) (!color)
        mmrRowStep data ref w fuel p4 cur2 color (fill2 : Int)
      else do
        let delta : Int :=
          if mode = 0 then 0 else if mode = 1 then 1 else if mode = 2 then 2
          else if mode = 3 then 3 else if mode = 4 then -1 else if mode = 5 then -2
          else -3
        let a1 := min (max ((b1 : Int) + delta) (cur.length : Int)).toNat w
        let cur2 := cur ++ List.replicate (a1 - cur.length) color
        mmrRowStep data ref w fuel p2 cur2 (!color) (a1 : Int)

/-- Modelled from the spec: decode `h` MMR-coded rows of width `w` starting
at bit position `pos`; the reference row of the first row is all white and
each further row references its predecessor.  The MMR decoder source is
absent from the snapshot. -/
def mmrRowsFrom (data : List Nat) (w : Nat) :
    Nat → Nat → List Bool → Except String (List (List Bool) × Nat)
  | 0, pos, _ => pure ([], pos)
  | hrem + 1, pos, ref => do
    let (row, p2) ← mmrRowStep data ref w (8 * data.length + 64) pos [] false (-1)
    let (rest, p3) ← mmrRowsFrom data w hrem p2 row
    pure (row :: rest, p3)

/-- The 24-bit EOFB terminator (two T.4 EOL codes) ending an MMR-coded
datastream; returns the position just past it when present. -/
def skipEOFB (data : List Nat) (pos : Nat) : Nat :=
  if readBits data pos 12 = 1 ∧ readBits data (pos + 12) 12 = 1 then pos + 24 else pos

/-! ## Huffman-coded symbol dictionary decoding (spec 4.5) -/

/-- Slice a collectively decoded bitmap into the height class's symbols by
their decoded widths (spec 4.5 step 2: symbols of a height class are coded
collectively and then split). -/
def sliceColumns (rows : List (List Bool)) (height : Nat) :
    List Nat → Nat → List Bitmap
  | [], _ => []
  | wdt :: rest, x0 =>
    ⟨wdt, height, rows.map (fun r => (r.drop x0).take wdt)⟩ ::
      sliceColumns rows height rest (x0 + wdt)

/-- Decode the symbol widths of one height class: width deltas from table
B.2, each relative to the previous symbol's width, until the distinguished
out-of-band delta ends the class (spec 4.5 step 1). -/
def decodeWidthList (data : List Nat) : Nat → Nat → Int →
    Except String (List Nat × Nat)
  | 0, _, _ => .error "too many symbols in height class"
  | fuel + 1, pos, symWidth => do
    let (dw, p2) ← decodeHuffInt tableB2 data pos
    match dw with
    | none => pure ([], p2)
    | some d =>
      let sw := symWidth + d
      if sw < 0 then .error "negative symbol width"
      else do
        let (rest, p3) ← decodeWidthList data fuel p2 sw
        pure (sw.toNat :: rest, p3)

/-- Modelled from the spec: the height class loop of a Huffman-coded symbol
dictionary without refinement/aggregation — each class decodes a height
delta (table B.4), the member widths (table B.2 until OOB), a collective
bitmap size (table B.1), and then, after aligning to a byte boundary, the
collective bitmap (uncompressed when size 0, MMR-coded otherwise), which is
sliced into the class's symbols (spec 4.5 steps 1-2). -/
def decodeHeightClasses (data : List Nat) (numNew : Nat) :
    Nat → Nat → Int → List Bitmap → Except String (List Bitmap × Nat)
  | 0, _, _, _ => .error "height class loop exhausted"
  | fuel + 1, pos, hcHeight, syms =>
    if numNew ≤ syms.length then pure (syms, pos)
    else do
      let (dh, p1) ← decodeHuffInt tableB4 data pos
      match dh with
      | none => .error "unexpected OOB height class delta"
      | some d =>
        let hh := hcHeight + d
        if hh < 0 then .error "negative height class height"
        else do
          let (widths, p2) ← decodeWidthList data (numNew + 1) p1 0
          let (bmsizeOpt, p3) ← decodeHuffInt tableB1 data p2
          match bmsizeOpt with
          | none => .error "unexpected OOB bitmap size"
          | some bmsizeI =>
            let p4 := (p3 + 7) / 8 * 8
            let totWidth := widths.foldl (fun a b => a + b) 0
            let hnat := hh.toNat
            if bmsizeI = 0 then
              let stride := (totWidth + 7) / 8
              let rows := (List.range hnat).map (fun r =>
                (List.range totWidth).map (fun x =>
                  bitAt data (p4 + r * stride * 8 + x) == 1))
              decodeHeightClasses data numNew fuel (p4 + hnat * stride * 8) hh
                (syms ++ sliceColumns rows hnat widths 0)
            else do
              let (rows, _) ← mmrRowsFrom data totWidth hnat p4
                (List.replicate totWidth false)
              decodeHeightClasses data numNew fuel (p4 + bmsizeI.toNat * 8) hh
                (syms ++ sliceColumns rows hnat widths 0)

/-- Decode the export run lengths (table B.1) until the runs cover all
symbols of the dictionary (spec 4.5 step 3). -/
def decodeExportRuns (data : List Nat) (total : Nat) :
    Nat → Nat → Nat → Except String (List Nat × Nat)
  | 0, _, _ => .error "export run loop exhausted"
  | fuel + 1, pos, acc =>
    if total ≤ acc then pure ([], pos)
    else do
      let (v, p2) ← decodeHuffInt tableB1 data pos
      match v with
      | none => .error "unexpected OOB export run"
      | some r =>
        if r < 0 then .error "negative export run"
        else do
          let (rest, p3) ← decodeExportRuns data total fuel p2 (acc + r.toNat)
          pure (r.toNat :: rest, p3)

/-- Modelled from the spec: decode the data of a Huffman-coded symbol
dictionary segment with no refinement/aggregation and the default standard
tables (data flags 0x0001): the 16-bit flags, the declared export and
new-symbol amounts, the height classes, and the export-flag walk, whose
total must match the declared export amount (spec 4.5).  The other flag
combinations (arithmetic coding, refinement/aggregation, custom tables)
take different decode paths and are not part of this scenario. -/
def decodeSymbolDictionaryData (seg : List Nat) : Except String SymbolDictResult := do
  if seg.length < 10 then .error "symbol dictionary data too short"
  else do
    let flags := seg.getD 0 0 * 256 + seg.getD 1 0
    if flags ≠ 1 then .error "symbol dictionary flags combination not modelled"
    else do
      let numEx := seg.getD 2 0 * 16777216 + seg.getD 3 0 * 65536 +
        seg.getD 4 0 * 256 + seg.getD 5 0
      let numNew := seg.getD 6 0 * 16777216 + seg.getD 7 0 * 65536 +
        seg.getD 8 0 * 256 + seg.getD 9 0
      let body := seg.drop 10
      let (newSyms, p) ← decodeHeightClasses body numNew (numNew + 1) 0 0 []
      let (runs, _) ← decodeExportRuns body numNew (numNew + 2) p 0
      let ex ← computeExportedSymbols [] newSyms runs numEx
      pure ⟨newSyms, ex⟩

/-- Parse a segment header and decode its data as a symbol dictionary. -/
def decodeSymbolDictionarySegment (data : List Nat) (off : Nat) :
    Except String (SegmentHeader × SymbolDictResult) := do
  let h ← parseHeader data off
  if h.segType = tSymbolDictionary then do
    let dict ← decodeSymbolDictionaryData ((data.drop h.dataStart).take h.dataLength)
    pure (h, dict)
  else .error "not a symbol dictionary segment"

/-! ## Pattern dictionary and halftone region decoding (spec 4.7) -/

/-- True when some pixel of the bitmap is set. -/
def Bitmap.anyPixel (b : Bitmap) : Bool :=
  b.pixels.any (fun row => row.any (fun p => p))

/-- The combination operator encoded in a region's flag bits. -/
def combOpOfNat : Nat → CombOp
  | 0 => .or
  | 1 => .and
  | 2 => .xor
  | 3 => .xnor
  | _ => .replace

/-- Modelled from the spec: decode an MMR-coded pattern dictionary segment's
data — flags, pattern cell width and height, the largest gray value, and one
collective MMR decode of width (GRAYMAX+1) x HDPW that is then sliced into
the individual patterns (spec 4.7: "collective decode, not N independent
decodes"). -/
def decodePatternDictionaryData (seg : List Nat) : Except String (List Bitmap) := do
  if seg.length < 7 then .error "pattern dictionary data too short"
  else do
    let flags := seg.getD 0 0
    if flags ≠ 1 then .error "pattern dictionary flags not modelled"
    else do
      let hdpw := seg.getD 1 0
      let hdph := seg.getD 2 0
      let grayMax := seg.getD 3 0 * 16777216 + seg.getD 4 0 * 65536 +
        seg.getD 5 0 * 256 + seg.getD 6 0
      let cw := (grayMax + 1) * hdpw
      let (rows, _) ← mmrRowsFrom (seg.drop 7) cw hdph 0 (List.replicate cw false)
      pure (sliceColumns rows hdph (List.replicate (grayMax + 1) hdpw) 0)

/-- Modelled from the spec: decode the MMR-coded bitplanes of the grayscale
index image — one continuous datastream, most significant plane first, each
plane terminated by EOFB and byte-aligned (spec 4.7: "one bitplane per bit
of depth"). -/
def decodeGrayPlanes (data : List Nat) (w h : Nat) :
    Nat → Nat → List (List (List Bool)) → Except String (List (List (List Bool)))
  | 0, _, acc => pure acc
  | k + 1, pos, acc => do
    let (rows, p2) ← mmrRowsFrom data w h pos (List.replicate w false)
    let p3 := (skipEOFB data p2 + 7) / 8 * 8
    decodeGrayPlanes data w h k p3 (acc ++ [rows])

/-- Modelled from the spec: combine the MSB-first bitplanes by Gray-code
accumulation into per-cell pattern index values (spec 4.7). -/
def grayCodeValues (planes : List (List (List Bool))) (w h : Nat) : List (List Nat) :=
  (List.range h).map (fun m => (List.range w).map (fun n =>
    (planes.foldl
      (fun (acc : Nat × Bool) pl =>
        let bit := xor ((pl.getD m []).getD n false) acc.2
        (acc.1 * 2 + (if bit then 1 else 0), bit))
      (0, false)).1))

/-- Modelled from the spec: decode an MMR-coded halftone region segment's
data — the region information (declared width and height first), the
halftone flags, the grid parameters, the grayscale image (bitplanes combined
by Gray code), and finally the tiling of the referenced patterns onto the
region bitmap at the computed grid positions with the region's combination
operator; placements off the bitmap clip (spec 4.7, 4.6). -/
def decodeHalftoneRegionData (seg : List Nat) (patterns : List Bitmap) :
    Except String Bitmap := do
  if seg.length < 38 then .error "halftone region data too short"
  else do
    let w := seg.getD 0 0 * 16777216 + seg.getD 1 0 * 65536 +
      seg.getD 2 0 * 256 + seg.getD 3 0
    let h := seg.getD 4 0 * 16777216 + seg.getD 5 0 * 65536 +
      seg.getD 6 0 * 256 + seg.getD 7 0
    let flags := seg.getD 17 0
    if flags % 2 ≠ 1 then .error "halftone flags combination not modelled"
    else if patterns.length < 2 then .error "pattern dictionary too small"
    else do
      let hgw := seg.getD 18 0 * 16777216 + seg.getD 19 0 * 65536 +
        seg.getD 20 0 * 256 + seg.getD 21 0
      let hgh := seg.getD 22 0 * 16777216 + seg.getD 23 0 * 65536 +
        seg.getD 24 0 * 256 + seg.getD 25 0
      let hgxRaw := seg.getD 26 0 * 16777216 + seg.getD 27 0 * 65536 +
        seg.getD 28 0 * 256 + seg.getD 29 0
      let hgyRaw := seg.getD 30 0 * 16777216 + seg.getD 31 0 * 65536 +
        seg.getD 32 0 * 256 + seg.getD 33 0
      let hrx := seg.getD 34 0 * 256 + seg.getD 35 0
      let hry := seg.getD 36 0 * 256 + seg.getD 37 0
      let combOp := combOpOfNat (flags / 16 % 8)
      let bpp := Nat.log2 (patterns.length - 1) + 1
      let planes ← decodeGrayPlanes (seg.drop 38) hgw hgh bpp 0 []
      let vals := grayCodeValues planes hgw hgh
      let hgx : Int := if hgxRaw < 2147483648 then hgxRaw else (hgxRaw : Int) - 4294967296
      let hgy : Int := if hgyRaw < 2147483648 then hgyRaw else (hgyRaw : Int) - 4294967296
      pure ((List.range hgh).foldl (fun pg (m : Nat) =>
        (List.range hgw).foldl (fun pg2 (n : Nat) =>
          let x : Int := (hgx + (m : Int) * (hry : Int) + (n : Int) * (hrx : Int)) / 256
          let y : Int := (hgy + (m : Int) * (hrx : Int) - (n : Int) * (hry : Int)) / 256
          if 0 ≤ x ∧ 0 ≤ y then
            composite pg2 ⟨patterns.getD ((vals.getD m []).getD n 0) (Bitmap.blank 0 0),
              x.toNat, y.toNat, combOp⟩
          else pg2) pg) (Bitmap.blank w h))

/-- Modelled from the spec: the concrete halftone scenario — parse the
pattern dictionary segment at offset 0, decode its patterns, parse the
halftone region segment that follows it, and decode the region using those
patterns (spec section 8). -/
def decodeHalftoneScenario (data : List Nat) :
    Except String (SegmentHeader × SegmentHeader × Bitmap) := do
  let ph ← parseHeader data 0
  if ph.segType = 16 then do
    let patterns ← decodePatternDictionaryData
      ((data.drop ph.dataStart).take ph.dataLength)
    let hh ← parseHeader data (nextSegmentOffset ph)
    let bm ← decodeHalftoneRegionData ((data.drop hh.dataStart).take hh.dataLength)
      patterns
    pure (ph, hh, bm)
  else .error "expected a pattern dictionary segment"

/-! ## Concrete test vectors kept in the repository
(`pdf/internal/jbig2/segments/symbol-dictionary_test.go`) -/

/-- The Annex-H chained test vector: a symbol dictionary numbered 16 (11-byte
header, 22-byte data) followed by a segment numbered 17 (12-byte header,
32-byte data) whose referred-to segment list names segment 16. -/
def chainedData : List Nat := [
  0x00, 0x00, 0x00, 0x10, 0x00, 0x01, 0x00, 0x00, 0x00, 0x00, 0x16,
  0x08, 0x00, 0x02, 0xFF, 0x00, 0x00, 0x00, 0x01, 0x00, 0x00, 0x00,
  0x01, 0x4F, 0xE7, 0x8D, 0x68, 0x1B, 0x14, 0x2F, 0x3F, 0xFF, 0xAC,
  0x00, 0x00, 0x00, 0x11, 0x00, 0x21, 0x10, 0x03, 0x00, 0x00, 0x00, 0x20,
  0x08, 0x02, 0x02, 0xFF, 0xFF, 0xFF, 0xFF, 0xFF, 0x00, 0x00, 0x00, 0x03,
  0x00, 0x00, 0x00, 0x02, 0x4F, 0xE9, 0xD7, 0xD5, 0x90, 0xC3, 0xB5, 0x26,
  0xA7, 0xFB, 0x6D, 0x14, 0x98, 0x3F, 0xFF, 0xAC]

/-- The parsed header of segment 16 of `chainedData`. -/
def hdr16 : SegmentHeader :=
  { segmentNumber := 16, segType := 0, deferredNonRetain := false,
    pageAssociationFieldSize := false, rtSegmentNumbers := [],
    pageAssociation := 0, dataLength := 22, unknownLength := false,
    dataStart := 11 }

/-- The parsed header of segment 17 of `chainedData` (which starts at byte
offset 33). -/
def hdr17 : SegmentHeader :=
  { segmentNumber := 17, segType := 0, deferredNonRetain := false,
    pageAssociationFieldSize := false, rtSegmentNumbers := [16],
    pageAssociation := 3, dataLength := 32, unknownLength := false,
    dataStart := 45 }

/-- The Annex-H-style first symbol dictionary test vector: segment number 0,
type symbol dictionary, 1-byte page association, data length 24, followed by
its 24-byte Huffman-coded data payload. -/
def annexHFirstSegment : List Nat :=
  [0x00, 0x00, 0x00, 0x00, 0x00, 0x01, 0x00, 0x00, 0x00, 0x00, 0x18,
   0x00, 0x01, 0x00, 0x00, 0x00, 0x01, 0x00, 0x00, 0x00, 0x01, 0xE9, 0xCB,
   0xF4, 0x00, 0x26, 0xAF, 0x04, 0xBF, 0xF0, 0x78, 0x2F, 0xE0, 0x00, 0x40]

/-- The 5x8 symbol bitmap carried by the Annex-H first symbol dictionary
(the letter P). -/
def annexHSymbol : Bitmap :=
  ⟨5, 8, [[true, true, true, true, false],
          [true, false, false, false, true],
          [true, false, false, false, true],
          [true, false, false, false, true],
          [true, true, true, true, false],
          [true, false, false, false, false],
          [true, false, false, false, false],
          [true, false, false, false, false]]⟩

/-- The halftone test vector: a pattern dictionary (segment number 5, 11-byte
header, 45-byte data) followed by a halftone region (segment number 6,
12-byte header, 87-byte data) that refers to segment 5. -/
def halftoneStream : List Nat :=
  [0x00, 0x00, 0x00, 0x05, 0x10, 0x01, 0x01, 0x00, 0x00, 0x00, 0x2D,
   0x01, 0x04, 0x04, 0x00, 0x00, 0x00, 0x0F, 0x20, 0xD1, 0x84,
   0x61, 0x18, 0x45, 0xF2, 0xF9, 0x7C, 0x8F, 0x11, 0xC3, 0x9E,
   0x45, 0xF2, 0xF9, 0x7D, 0x42, 0x85, 0x0A, 0xAA, 0x84, 0x62,
   0x2F, 0xEE, 0xEC, 0x44, 0x62, 0x22, 0x35, 0x2A, 0x0A, 0x83,
   0xB9, 0xDC, 0xEE, 0x77, 0x80,
   0x00, 0x00, 0x00, 0x06, 0x17, 0x20, 0x05, 0x01, 0x00, 0x00, 0x00, 0x57,
   0x00, 0x00, 0x00, 0x20, 0x00, 0x00, 0x00, 0x24, 0x00, 0x00, 0x00, 0x10, 0x00, 0x00,
   0x00, 0x0F, 0x00, 0x01, 0x00, 0x00, 0x00, 0x08, 0x00, 0x00, 0x00, 0x09, 0x00, 0x00,
   0x00, 0x00, 0x00, 0x00, 0x00, 0x00, 0x04, 0x00, 0x00, 0x00, 0xAA, 0xAA, 0xAA, 0xAA,
   0x80, 0x08, 0x00, 0x80, 0x36, 0xD5, 0x55, 0x6B, 0x5A, 0xD4, 0x00, 0x40, 0x04, 0x2E,
   0xE9, 0x52, 0xD2, 0xD2, 0xD2, 0x8A, 0xA5, 0x4A, 0x00, 0x20, 0x02, 0x23, 0xE0, 0x95,
   0x24, 0xB4, 0x92, 0x8A, 0x4A, 0x92, 0x54, 0x92, 0xD2, 0x4A, 0x29, 0x2A, 0x49, 0x40,
   0x04, 0x00, 0x40]

/-- A segment header that declares the unknown-length sentinel on a symbol
dictionary (not a generic region): number 1, type 0, no referred-to segments,
page 1, data length 0xFFFFFFFF. -/
def badLengthData : List Nat :=
  [0, 0, 0, 1, 0x00, 0x00, 0x01, 0xFF, 0xFF, 0xFF, 0xFF]

/-- An immediate generic region (type 38) declaring the unknown-length
sentinel: after the 11-byte header, three data bytes precede the `FF AC`
terminator and its four-byte row count, and two junk bytes follow, so the
resolved extent (9 bytes) is shorter than reading to the end of input. -/
def unknownLengthGenericData : List Nat :=
  [0, 0, 0, 1, 0x26, 0x00, 0x01, 0xFF, 0xFF, 0xFF, 0xFF,
   0x00, 0x11, 0x22, 0xFF, 0xAC, 0, 0, 0, 5, 0x77, 0x88]

end JBIG2

namespace JBIG2

theorem not_covers_both_of_rectDisjoint {r1 r2 : Region} (hd : rectDisjoint r1 r2)
    (x y : Nat) : ¬(r1.covers x y = true ∧ r2.covers x y = true) := by
  rintro ⟨h1, h2⟩
  simp only [Region.covers, Bool.and_eq_true, decide_eq_true_eq] at h1 h2
  rcases hd with h | h | h | h <;> omega

theorem getD_range_map {α : Type} (f : Nat → α) (n i : Nat) (d : α) :
    (((List.range n).map f).getD i d) = if i < n then f i else d := by
  by_cases h : i < n
  · rw [List.getD_eq_getElem?_getD, List.getElem?_map, List.getElem?_range h]
    simp [h]
  · rw [List.getD_eq_getElem?_getD, List.getElem?_map]
    rw [List.getElem?_eq_none (by simpa using Nat.le_of_not_lt h)]
    simp [h]

theorem composite_get (page : Bitmap) (r : Region) (x y : Nat) :
    (composite page r).get x y =
      if x < page.width ∧ y < page.height then compositePixel page r x y
      else false := by
  unfold composite Bitmap.get
  simp only
  rw [getD_range_map]
  by_cases hy : y < page.height
  · simp only [hy, if_true]
    rw [getD_range_map]
    by_cases hx : x < page.width <;> simp [hx, hy]
  · simp [hy]

theorem composite_comm_pixel (page : Bitmap) (r1 r2 : Region)
    (hd : rectDisjoint r1 r2) (x y : Nat) (hx : x < page.width) (hy : y < page.height) :
    compositePixel (composite page r1) r2 x y =
      compositePixel (composite page r2) r1 x y := by
  have hnb := not_covers_both_of_rectDisjoint hd x y
  unfold compositePixel
  rw [composite_get, composite_get]
  simp only [hx, hy, and_self, if_true]
  unfold compositePixel
  by_cases h1 : r1.covers x y = true
  · have h2 : ¬(r2.covers x y = true) := fun h => hnb ⟨h1, h⟩
    simp [h1, h2]
  · by_cases h2 : r2.covers x y = true <;> simp [h1, h2]

theorem composite_comm (page : Bitmap) (r1 r2 : Region) (hd : rectDisjoint r1 r2) :
    composite (composite page r1) r2 = composite (composite page r2) r1 := by
  unfold composite
  simp only [Bitmap.mk.injEq, true_and]
  apply List.map_congr_left
  intro y hy
  apply List.map_congr_left
  intro x hx
  exact composite_comm_pixel page r1 r2 hd x y
    (List.mem_range.mp hx) (List.mem_range.mp hy)

theorem except_ok_bind {α β : Type} (a : α) (f : α → Except String β) :
    (Except.ok a >>= f) = f a := rfl

theorem except_error_bind {α β : Type} (e : String) (f : α → Except String β) :
    ((Except.error e : Except String α) >>= f) = .error e := rfl

theorem except_pure {α : Type} (a : α) : (pure a : Except String α) = .ok a := rfl

theorem readByte_ok_iff (data : List Nat) (i b : Nat) :
    readByte data i = .ok b ↔ data[i]? = some b := by
  unfold readByte
  rw [List.get?_eq_getElem?]
  cases data[i]? <;> simp

theorem readByte_stable {data : List Nat} {i b : Nat} (n : Nat) (tail : List Nat)
    (h : readByte data i = .ok b) (hin : i < n) :
    readByte (data.take n ++ tail) i = .ok b := by
  rw [readByte_ok_iff] at h ⊢
  have hlen : i < data.length := (List.getElem?_eq_some_iff.mp h).1
  rw [List.getElem?_append_left (by simp only [List.length_take]; omega),
      List.getElem?_take_of_lt hin]
  exact h

theorem readU32_stable {data : List Nat} {i v : Nat} (n : Nat) (tail : List Nat)
    (h : readU32 data i = .ok v) (hin : i + 3 < n) :
    readU32 (data.take n ++ tail) i = .ok v := by
  unfold readU32 at h ⊢
  cases h0 : readByte data i with
  | error e => rw [h0] at h; simp [except_pure, except_ok_bind, except_error_bind] at h
  | ok b0 =>
  rw [h0] at h
  rw [readByte_stable n tail h0 (by omega)]
  simp only [except_ok_bind] at h ⊢
  cases h1 : readByte data (i + 1) with
  | error e => rw [h1] at h; simp [except_pure, except_ok_bind, except_error_bind] at h
  | ok b1 =>
  rw [h1] at h
  rw [readByte_stable n tail h1 (by omega)]
  simp only [except_ok_bind] at h ⊢
  cases h2 : readByte data (i + 2) with
  | error e => rw [h2] at h; simp [except_pure, except_ok_bind, except_error_bind] at h
  | ok b2 =>
  rw [h2] at h
  rw [readByte_stable n tail h2 (by omega)]
  simp only [except_ok_bind] at h ⊢
  cases h3 : readByte data (i + 3) with
  | error e => rw [h3] at h; simp [except_pure, except_ok_bind, except_error_bind] at h
  | ok b3 =>
  rw [h3] at h
  rw [readByte_stable n tail h3 (by omega)]
  simp only [except_ok_bind] at h ⊢
  exact h

theorem parseReferredCount_stable {data : List Nat} {i count rtEnd : Nat}
    (n : Nat) (tail : List Nat)
    (h : parseReferredCount data i = .ok (count, rtEnd)) (hin : i + 3 < n) :
    parseReferredCount (data.take n ++ tail) i = .ok (count, rtEnd) := by
  unfold parseReferredCount at h ⊢
  cases hb : readByte data i with
  | error e => rw [hb] at h; simp [except_pure, except_ok_bind, except_error_bind] at h
  | ok b =>
  rw [hb] at h
  rw [readByte_stable n tail hb (by omega)]
  simp only [except_ok_bind] at h ⊢
  by_cases hsf : b / 32 ≤ 4
  · rw [if_pos hsf] at h ⊢; exact h
  · rw [if_neg hsf] at h ⊢
    by_cases hlf : b / 32 = 7
    · rw [if_pos hlf] at h ⊢
      cases hv : readU32 data i with
      | error e => rw [hv] at h; simp [except_pure, except_ok_bind, except_error_bind] at h
      | ok v =>
        rw [hv] at h
        rw [readU32_stable n tail hv hin]
        simp only [except_ok_bind] at h ⊢
        exact h
    · rw [if_neg hlf] at h ⊢; exact h

theorem parseReferredCount_rtEnd_lower {data : List Nat} {i count rtEnd : Nat}
    (h : parseReferredCount data i = .ok (count, rtEnd)) : i + 1 ≤ rtEnd := by
  unfold parseReferredCount at h
  cases hb : readByte data i with
  | error e => rw [hb] at h; simp [except_pure, except_ok_bind, except_error_bind] at h
  | ok b =>
  rw [hb] at h
  simp only [except_ok_bind] at h
  by_cases hsf : b / 32 ≤ 4
  · rw [if_pos hsf] at h
    have : rtEnd = i + 1 := by
      cases h; rfl
    omega
  · rw [if_neg hsf] at h
    by_cases hlf : b / 32 = 7
    · rw [if_pos hlf] at h
      cases hv : readU32 data i with
      | error e => rw [hv] at h; simp [except_pure, except_ok_bind, except_error_bind] at h
      | ok v =>
        rw [hv] at h
        simp only [except_ok_bind] at h
        have : rtEnd = i + 4 + (v % 536870912 + 8) / 8 := by
          cases h; rfl
        omega
    · rw [if_neg hlf] at h; simp at h

theorem readRefNumbers_stable {data : List Nat} (n : Nat) (tail : List Nat)
    (count : Nat) :
    ∀ (i : Nat) (refs : List Nat) (size : Nat), size = 1 ∨ size = 2 ∨ size = 4 →
      readRefNumbers data i size count = .ok refs → i + size * count ≤ n →
      readRefNumbers (data.take n ++ tail) i size count = .ok refs := by
  induction count with
  | zero => intro i refs size _ h _; exact h
  | succ c ih =>
    intro i refs size hsz h hle
    unfold readRefNumbers at h ⊢
    rcases hsz with rfl | rfl | rfl
    · cases hb : readByte data i with
      | error e => rw [hb] at h; simp [except_pure, except_ok_bind, except_error_bind] at h
      | ok b =>
      rw [hb] at h
      rw [readByte_stable n tail hb (by omega)]
      simp only [except_ok_bind] at h ⊢
      cases hr : readRefNumbers data (i + 1) 1 c with
      | error e => rw [hr] at h; simp [except_pure, except_ok_bind, except_error_bind] at h
      | ok rest =>
        rw [hr] at h
        rw [ih (i + 1) rest 1 (Or.inl rfl) hr (by omega)]
        simp only [except_ok_bind] at h ⊢
        exact h
    · cases hb : readByte data i with
      | error e => rw [hb] at h; simp [except_pure, except_ok_bind, except_error_bind] at h
      | ok b0 =>
      rw [hb] at h
      rw [readByte_stable n tail hb (by omega)]
      simp only [except_ok_bind] at h ⊢
      cases hb1 : readByte data (i + 1) with
      | error e => rw [hb1] at h; simp [except_pure, except_ok_bind, except_error_bind] at h
      | ok b1 =>
      rw [hb1] at h
      rw [readByte_stable n tail hb1 (by omega)]
      simp only [except_ok_bind] at h ⊢
      cases hr : readRefNumbers data (i + 2) 2 c with
      | error e => rw [hr] at h; simp [except_pure, except_ok_bind, except_error_bind] at h
      | ok rest =>
        rw [hr] at h
        rw [ih (i + 2) rest 2 (Or.inr (Or.inl rfl)) hr (by omega)]
        simp only [except_ok_bind] at h ⊢
        exact h
    · cases hv : readU32 data i with
      | error e => rw [hv] at h; simp [except_pure, except_ok_bind, except_error_bind] at h
      | ok v =>
      rw [hv] at h
      rw [readU32_stable n tail hv (by omega)]
      simp only [except_ok_bind] at h ⊢
      cases hr : readRefNumbers data (i + 4) 4 c with
      | error e => rw [hr] at h; simp [except_pure, except_ok_bind, except_error_bind] at h
      | ok rest =>
        rw [hr] at h
        rw [ih (i + 4) rest 4 (Or.inr (Or.inr rfl)) hr (by omega)]
        simp only [except_ok_bind] at h ⊢
        exact h

theorem refNumberSize_cases (segNum : Nat) :
    refNumberSize segNum = 1 ∨ refNumberSize segNum = 2 ∨ refNumberSize segNum = 4 := by
  unfold refNumberSize
  by_cases h1 : segNum ≤ 256
  · simp [h1]
  · by_cases h2 : segNum ≤ 65536 <;> simp [h1, h2]

theorem parseHeaderRaw_stable {data : List Nat} {off : Nat} {raw : RawHeader}
    (tail : List Nat) (h : parseHeaderRaw data off = .ok raw) :
    parseHeaderRaw (data.take raw.dataStart ++ tail) off = .ok raw := by
  unfold parseHeaderRaw at h ⊢
  cases hnum : readU32 data off with
  | error e => rw [hnum] at h; simp [except_pure, except_ok_bind, except_error_bind] at h
  | ok num =>
  rw [hnum] at h
  simp only [except_ok_bind] at h
  cases hfl : readByte data (off + 4) with
  | error e => rw [hfl] at h; simp [except_pure, except_ok_bind, except_error_bind] at h
  | ok flags =>
  rw [hfl] at h
  simp only [except_ok_bind] at h
  cases hrc : parseReferredCount data (off + 5) with
  | error e => rw [hrc] at h; simp [except_pure, except_ok_bind, except_error_bind] at h
  | ok pr =>
  obtain ⟨count, rtEnd⟩ := pr
  rw [hrc] at h
  simp only [except_ok_bind] at h
  have hrt : off + 5 + 1 ≤ rtEnd := parseReferredCount_rtEnd_lower hrc
  cases hrefs : readRefNumbers data rtEnd (refNumberSize num) count with
  | error e => rw [hrefs] at h; simp [except_pure, except_ok_bind, except_error_bind] at h
  | ok refs =>
  rw [hrefs] at h
  simp only [except_ok_bind] at h
  by_cases hpa : flags / 64 % 2 = 1
  · simp only [if_pos hpa] at h ⊢
    cases hpg : readU32 data (rtEnd + refNumberSize num * count) with
    | error e => rw [hpg] at h; simp [except_pure, except_ok_bind, except_error_bind] at h
    | ok page =>
    rw [hpg] at h
    simp only [except_ok_bind] at h
    cases hlen : readU32 data (rtEnd + refNumberSize num * count + 4) with
    | error e => rw [hlen] at h; simp [except_pure, except_ok_bind, except_error_bind] at h
    | ok lenField =>
    rw [hlen] at h
    simp only [except_ok_bind, except_pure] at h
    cases h
    show parseHeaderRaw
      (List.take (rtEnd + refNumberSize num * count + 4 + 4) data ++ tail) off = _
    unfold parseHeaderRaw
    rw [readU32_stable _ tail hnum (by omega)]
    simp only [except_ok_bind]
    rw [readByte_stable _ tail hfl (by omega)]
    simp only [except_ok_bind]
    rw [parseReferredCount_stable _ tail hrc (by omega)]
    simp only [except_ok_bind]
    rw [readRefNumbers_stable _ tail count rtEnd refs (refNumberSize num)
      (refNumberSize_cases num) hrefs (by omega)]
    simp only [except_ok_bind]
    simp only [if_pos hpa]
    rw [readU32_stable _ tail hpg (by omega)]
    simp only [except_ok_bind]
    rw [readU32_stable _ tail hlen (by omega)]
    simp only [except_ok_bind, except_pure]
  · simp only [if_neg hpa] at h ⊢
    cases hpg : readByte data (rtEnd + refNumberSize num * count) with
    | error e => rw [hpg] at h; simp [except_pure, except_ok_bind, except_error_bind] at h
    | ok page =>
    rw [hpg] at h
    simp only [except_ok_bind] at h
    cases hlen : readU32 data (rtEnd + refNumberSize num * count + 1) with
    | error e => rw [hlen] at h; simp [except_pure, except_ok_bind, except_error_bind] at h
    | ok lenField =>
    rw [hlen] at h
    simp only [except_ok_bind, except_pure] at h
    cases h
    show parseHeaderRaw
      (List.take (rtEnd + refNumberSize num * count + 1 + 4) data ++ tail) off = _
    unfold parseHeaderRaw
    rw [readU32_stable _ tail hnum (by omega)]
    simp only [except_ok_bind]
    rw [readByte_stable _ tail hfl (by omega)]
    simp only [except_ok_bind]
    rw [parseReferredCount_stable _ tail hrc (by omega)]
    simp only [except_ok_bind]
    rw [readRefNumbers_stable _ tail count rtEnd refs (refNumberSize num)
      (refNumberSize_cases num) hrefs (by omega)]
    simp only [except_ok_bind]
    simp only [if_neg hpa]
    rw [readByte_stable _ tail hpg (by omega)]
    simp only [except_ok_bind]
    rw [readU32_stable _ tail hlen (by omega)]
    simp only [except_ok_bind, except_pure]

theorem resolveDataLength_known {st lf : Nat} {data : List Nat} {ds : Nat} {len : Nat}
    (hres : resolveDataLength st lf data ds = .ok (len, false)) (data2 : List Nat)
    (ds2 : Nat) : resolveDataLength st lf data2 ds2 = .ok (len, false) := by
  unfold resolveDataLength at hres ⊢
  by_cases hs : lf = 4294967295
  · rw [if_pos hs] at hres
    cases hig : isImmediateGenericRegion st
    · rw [hig] at hres; simp at hres
    · rw [hig] at hres
      simp only [if_pos rfl] at hres
      cases hft : findTerminator data ds with
      | none => rw [hft] at hres; simp at hres
      | some p => rw [hft] at hres; simp at hres
  · rw [if_neg hs] at hres ⊢
    exact hres

theorem parseHeader_stable {data : List Nat} {off : Nat} {h : SegmentHeader}
    (tail : List Nat) (hok : parseHeader data off = .ok h)
    (hunk : h.unknownLength = false) :
    parseHeader (data.take h.dataStart ++ tail) off = .ok h := by
  unfold parseHeader at hok ⊢
  cases hraw : parseHeaderRaw data off with
  | error e => rw [hraw] at hok; simp [except_pure, except_ok_bind, except_error_bind] at hok
  | ok raw =>
  rw [hraw] at hok
  simp only [except_ok_bind] at hok
  cases hres : resolveDataLength (raw.flags % 64) raw.lenField data raw.dataStart with
  | error e => rw [hres] at hok; simp [except_pure, except_ok_bind, except_error_bind] at hok
  | ok lu =>
  obtain ⟨len, unk⟩ := lu
  rw [hres] at hok
  simp only [except_ok_bind, except_pure] at hok
  cases hok
  simp only at hunk
  cases hunk
  rw [parseHeaderRaw_stable tail hraw]
  simp only [except_ok_bind]
  rw [resolveDataLength_known hres _ _]
  simp only [except_ok_bind, except_pure]

end JBIG2

/-- C7: on any segment whose header declares the data-length sentinel
0xFFFFFFFF, header processing returns a structural error unless the segment
is an immediate generic region, in which case the data extent is determined
by scanning for the end-of-data terminator (its position `p`), not by
consuming bytes to the end of the input. -/
theorem unknown_data_length_handling (data : List Nat) (off : Nat)
    (raw : JBIG2.RawHeader) (hraw : JBIG2.parseHeaderRaw data off = .ok raw)
    (hsent : raw.lenField = 4294967295) :
    (JBIG2.isImmediateGenericRegion (raw.flags % 64) = false →
      ∃ e, JBIG2.parseHeader data off = .error e) ∧
    (JBIG2.isImmediateGenericRegion (raw.flags % 64) = true →
      ∀ p, JBIG2.findTerminator data raw.dataStart = some p →
        ∃ h, JBIG2.parseHeader data off = .ok h ∧
          h.dataLength = p + 6 - raw.dataStart ∧ h.unknownLength = true) := by
  unfold JBIG2.parseHeader
  rw [hraw, JBIG2.except_ok_bind]
  unfold JBIG2.resolveDataLength
  rw [hsent]
  simp only [if_pos rfl]
  constructor
  · intro hng
    rw [hng]
    exact ⟨_, rfl⟩
  · intro hg p hp
    rw [hg, hp]
    simp only [JBIG2.except_ok_bind]
    exact ⟨_, rfl, rfl, rfl⟩

/-- C7 witness: the sentinel on a concrete symbol-dictionary segment is a
structural error, while on a concrete immediate generic region with the
terminator at index 14 (data starting at 11) the resolved extent is 9 bytes,
shorter than the 11 bytes that remain to the end of the input. -/
theorem unknown_data_length_handling_witness :
    (∃ e, JBIG2.parseHeader JBIG2.badLengthData 0 = .error e) ∧
    (∃ h, JBIG2.parseHeader JBIG2.unknownLengthGenericData 0 = .ok h ∧
      h.dataLength = 14 + 6 - 11 ∧ h.unknownLength = true) ∧
    14 + 6 - 11 < JBIG2.unknownLengthGenericData.length - 11 := by
  refine ⟨?_, ?_, by decide⟩
  · exact (unknown_data_length_handling JBIG2.badLengthData 0
      ⟨1, 0, [], 1, 4294967295, 11⟩ (by rfl) rfl).1 (by rfl)
  · exact (unknown_data_length_handling JBIG2.unknownLengthGenericData 0
      ⟨1, 38, [], 1, 4294967295, 11⟩ (by rfl) rfl).2 (by rfl) 14 (by rfl)

/-- C9: compositing two region bitmaps whose placement rectangles do not
overlap onto an initially blank page, with their combination operators,
produces the same final page bitmap in either order. -/
theorem page_composition_order_independent (w h : Nat) (r1 r2 : JBIG2.Region)
    (hd : JBIG2.rectDisjoint r1 r2) :
    JBIG2.composite (JBIG2.composite (JBIG2.Bitmap.blank w h) r1) r2 =
      JBIG2.composite (JBIG2.composite (JBIG2.Bitmap.blank w h) r2) r1 :=
  JBIG2.composite_comm (JBIG2.Bitmap.blank w h) r1 r2 hd

/-- C9 witness: two concrete 2x2 regions, one placed at (0,0) with OR, one at
(2,2) with XOR, composited onto a blank 4x4 page in either order, agree. -/
theorem page_composition_order_independent_witness :
    JBIG2.rectDisjoint
        ⟨⟨2, 2, [[true, false], [false, true]]⟩, 0, 0, .or⟩
        ⟨⟨2, 2, [[true, true], [true, false]]⟩, 2, 2, .xor⟩ ∧
      JBIG2.composite
          (JBIG2.composite (JBIG2.Bitmap.blank 4 4)
            ⟨⟨2, 2, [[true, false], [false, true]]⟩, 0, 0, .or⟩)
          ⟨⟨2, 2, [[true, true], [true, false]]⟩, 2, 2, .xor⟩ =
        JBIG2.composite
          (JBIG2.composite (JBIG2.Bitmap.blank 4 4)
            ⟨⟨2, 2, [[true, true], [true, false]]⟩, 2, 2, .xor⟩)
          ⟨⟨2, 2, [[true, false], [false, true]]⟩, 0, 0, .or⟩ :=
  ⟨by decide,
    page_composition_order_independent 4 4
      ⟨⟨2, 2, [[true, false], [false, true]]⟩, 0, 0, .or⟩
      ⟨⟨2, 2, [[true, true], [true, false]]⟩, 2, 2, .xor⟩ (by decide)⟩

/-- C10: a successfully parsed known-length segment header depends only on the
bytes before `dataStart` — bytes at and beyond the first data byte may be
replaced arbitrarily without changing the parse — and concretely in the
sequential test stream the 11-byte header at offset 0 yields `dataStart = 11`
and data length 22, so the next header parses at absolute offset 33 and is
segment 17. -/
theorem header_parse_consumes_exact_bytes :
    (∀ (data tail : List Nat) (off : Nat) (h : JBIG2.SegmentHeader),
      JBIG2.parseHeader data off = .ok h → h.unknownLength = false →
      JBIG2.parseHeader (data.take h.dataStart ++ tail) off = .ok h) ∧
    JBIG2.parseHeader JBIG2.chainedData 0 = .ok JBIG2.hdr16 ∧
    JBIG2.hdr16.dataStart = 0 + 11 ∧ JBIG2.hdr16.dataLength = 22 ∧
    JBIG2.nextSegmentOffset JBIG2.hdr16 = 33 ∧
    JBIG2.parseHeader JBIG2.chainedData (JBIG2.nextSegmentOffset JBIG2.hdr16) =
      .ok JBIG2.hdr17 ∧
    JBIG2.hdr17.segmentNumber = 17 :=
  ⟨fun _ tail _ _ hok hunk => JBIG2.parseHeader_stable tail hok hunk,
    by rfl, rfl, rfl, rfl, by rfl, rfl⟩

/-- C10 witness: replacing everything from segment 16's first data byte on
with junk leaves its header parse unchanged. -/
theorem header_parse_consumes_exact_bytes_witness :
    JBIG2.parseHeader (JBIG2.chainedData.take JBIG2.hdr16.dataStart ++ [7, 7, 7]) 0 =
      .ok JBIG2.hdr16 :=
  header_parse_consumes_exact_bytes.1 JBIG2.chainedData [7, 7, 7] 0 JBIG2.hdr16
    (by rfl) (by rfl)

/-- C2: a symbol dictionary decode returns a dictionary only when the
export-flag walk over `[inherited..., new...]` exports exactly the declared
`amountOfExportedSymbols`; when the walked total differs from the declared
amount the decode returns an error instead of a dictionary. -/
theorem symbol_dictionary_export_invariant (inh nw : List JBIG2.Bitmap)
    (runs : List Nat) (declared : Nat) :
    (∀ ex, JBIG2.computeExportedSymbols inh nw runs declared = .ok ex →
      ex.length = declared) ∧
    (∀ ex, JBIG2.exportWalk (inh ++ nw) (inh ++ nw).length runs 0 false = .ok ex →
      ex.length ≠ declared →
      ∃ e, JBIG2.computeExportedSymbols inh nw runs declared = .error e) := by
  constructor
  · intro ex hok
    unfold JBIG2.computeExportedSymbols at hok
    cases hw : JBIG2.exportWalk (inh ++ nw) (inh ++ nw).length runs 0 false with
    | error e =>
      rw [hw] at hok
      simp [JBIG2.except_pure, JBIG2.except_ok_bind, JBIG2.except_error_bind] at hok
    | ok ex2 =>
      rw [hw] at hok
      simp only [JBIG2.except_ok_bind] at hok
      by_cases hl : ex2.length = declared
      · rw [if_pos hl] at hok
        simp only [JBIG2.except_pure] at hok
        cases hok
        exact hl
      · rw [if_neg hl] at hok
        simp at hok
  · intro ex hw hne
    unfold JBIG2.computeExportedSymbols
    rw [hw]
    simp only [JBIG2.except_ok_bind]
    rw [if_neg hne]
    exact ⟨_, rfl⟩

/-- C2 witness: with one new symbol and runs skip 0 / export 1, declaring one
exported symbol succeeds with exactly one symbol, while declaring two makes
the decode error out. -/
theorem symbol_dictionary_export_invariant_witness :
    [JBIG2.Bitmap.blank 1 1].length = 1 ∧
    (∃ e, JBIG2.computeExportedSymbols [] [JBIG2.Bitmap.blank 1 1] [0, 1] 2 =
      .error e) :=
  ⟨(symbol_dictionary_export_invariant [] [JBIG2.Bitmap.blank 1 1] [0, 1] 1).1
      [JBIG2.Bitmap.blank 1 1] (by rfl),
    (symbol_dictionary_export_invariant [] [JBIG2.Bitmap.blank 1 1] [0, 1] 2).2
      [JBIG2.Bitmap.blank 1 1] (by rfl) (by decide)⟩

/-- C3: when the text-region instance loop returns a region bitmap, every
placed symbol ID satisfies `id < numAvailableSymbols`; and whenever any
decoded instance carries an out-of-range ID the loop returns the range-check
error instead of a region bitmap. -/
theorem text_region_symbol_id_bound (syms : List JBIG2.Bitmap)
    (op : JBIG2.CombOp) (instances : List (Nat × Nat × Nat)) (page : JBIG2.Bitmap) :
    (∀ bm ids, JBIG2.placeSymbolInstances syms op instances page = .ok (bm, ids) →
      ids = instances.map (fun q => q.1) ∧ ∀ id ∈ ids, id < syms.length) ∧
    ((∃ q ∈ instances, syms.length ≤ q.1) →
      JBIG2.placeSymbolInstances syms op instances page =
        .error "symbol ID out of range") := by
  induction instances generalizing page with
  | nil =>
    constructor
    · intro bm ids hok
      cases hok
      exact ⟨rfl, by simp⟩
    · rintro ⟨q, hq, -⟩
      simp at hq
  | cons inst rest ih =>
    obtain ⟨id, x, y⟩ := inst
    constructor
    · intro bm ids hok
      unfold JBIG2.placeSymbolInstances at hok
      by_cases hid : id < syms.length
      · rw [if_pos hid] at hok
        cases hrec : JBIG2.placeSymbolInstances syms op rest
            (JBIG2.composite page ⟨syms.getD id (JBIG2.Bitmap.blank 0 0), x, y, op⟩) with
        | error e =>
          rw [hrec] at hok
          simp [JBIG2.except_pure, JBIG2.except_ok_bind, JBIG2.except_error_bind] at hok
        | ok pr =>
          obtain ⟨bm2, ids2⟩ := pr
          rw [hrec] at hok
          simp only [JBIG2.except_ok_bind, JBIG2.except_pure] at hok
          cases hok
          obtain ⟨hmap, hall⟩ := (ih _).1 _ _ hrec
          refine ⟨by simp [hmap], ?_⟩
          intro j hj
          rcases List.mem_cons.mp hj with rfl | hj2
          · exact hid
          · exact hall j hj2
      · rw [if_neg hid] at hok
        simp at hok
    · rintro ⟨q, hq, hge⟩
      unfold JBIG2.placeSymbolInstances
      rcases List.mem_cons.mp hq with rfl | hq2
      · rw [if_neg (by omega)]
      · by_cases hid : id < syms.length
        · rw [if_pos hid]
          rw [(ih _).2 ⟨q, hq2, hge⟩]
          rfl
        · rw [if_neg hid]

/-- C3 witness: with one available symbol, an instance stream using ID 0
decodes with all IDs in range, and an instance stream using ID 1 halts with
the range-check error. -/
theorem text_region_symbol_id_bound_witness :
    ([(0, 0, 0)].map (fun q : Nat × Nat × Nat => q.1) =
        [(0, 0, 0)].map (fun q : Nat × Nat × Nat => q.1) ∧
      ∀ id ∈ [(0, (0 : Nat), (0 : Nat))].map (fun q => q.1),
        id < [JBIG2.Bitmap.blank 2 2].length) ∧
    JBIG2.placeSymbolInstances [JBIG2.Bitmap.blank 2 2] .or [(1, 0, 0)]
        (JBIG2.Bitmap.blank 4 4) = .error "symbol ID out of range" := by
  constructor
  · have h := (text_region_symbol_id_bound [JBIG2.Bitmap.blank 2 2] .or
      [(0, 0, 0)] (JBIG2.Bitmap.blank 4 4)).1 _ _ (by rfl)
    exact ⟨by rfl, by
      intro id hid
      exact h.2 id (by simpa using hid)⟩
  · exact (text_region_symbol_id_bound [JBIG2.Bitmap.blank 2 2] .or
      [(1, 0, 0)] (JBIG2.Bitmap.blank 4 4)).2 ⟨(1, 0, 0), by simp, by simp⟩

/-- C1: decoding is deterministic — re-running the generic-region decode on
the same byte buffer with identically initialized context state yields
bit-identical result bitmaps, and `decodeBit` is a pure function of the byte
stream and the context history: equal inputs give equal outputs, with no
other input. -/
theorem generic_region_decode_deterministic (p : JBIG2.GenericRegionParams)
    (data : List Nat) :
    (JBIG2.decodeGenericRegionTwice p data).1 =
        (JBIG2.decodeGenericRegionTwice p data).2 ∧
    (∀ (s1 s2 : JBIG2.MQDecoder) (cxs1 cxs2 : List JBIG2.MQContext) (l1 l2 : Nat),
      s1 = s2 → cxs1 = cxs2 → l1 = l2 →
      JBIG2.decodeBit s1 cxs1 l1 = JBIG2.decodeBit s2 cxs2 l2) := by
  refine ⟨rfl, ?_⟩
  rintro s1 s2 cxs1 cxs2 l1 l2 rfl rfl rfl
  rfl

/-- C1 witness: a concrete two-byte stream decoded twice as a 2x2 template-0
region gives the same bitmap both times, and a concrete `decodeBit` call
repeated on the same state gives the same result. -/
theorem generic_region_decode_deterministic_witness :
    (JBIG2.decodeGenericRegionTwice
        ⟨2, 2, 0, [(3, -1), (-3, -1), (2, -2), (-2, -2)], false⟩ [0x26, 0xA0]).1 =
      (JBIG2.decodeGenericRegionTwice
        ⟨2, 2, 0, [(3, -1), (-3, -1), (2, -2), (-2, -2)], false⟩ [0x26, 0xA0]).2 ∧
    JBIG2.decodeBit (JBIG2.initDec [0x26, 0xA0])
        (List.replicate 2 ⟨0, false⟩) 0 =
      JBIG2.decodeBit (JBIG2.initDec [0x26, 0xA0])
        (List.replicate 2 ⟨0, false⟩) 0 :=
  ⟨(generic_region_decode_deterministic
      ⟨2, 2, 0, [(3, -1), (-3, -1), (2, -2), (-2, -2)], false⟩ [0x26, 0xA0]).1,
    (generic_region_decode_deterministic ⟨2, 2, 0, [], false⟩ []).2
      _ _ _ _ _ _ rfl rfl rfl⟩

/-- C8: the MQ decoder's byte feeding never hard-fails at end of data —
reading past the declared data length yields a synthesized 0xFF byte, a 0xFF
byte followed by a byte of at least 0x90 makes BYTEIN stay in place and feed
a synthesized 0xFF (adding 0xFF00 to `C` with `CT = 8`), and `decodeBit`
always returns a decoded bit, never an error. -/
theorem mq_bytein_end_of_data_total (s : JBIG2.MQDecoder) :
    (s.data.length ≤ s.bp → JBIG2.mqByteAt s.data s.bp = 255) ∧
    (JBIG2.mqByteAt s.data s.bp = 255 → 144 ≤ JBIG2.mqByteAt s.data (s.bp + 1) →
      JBIG2.bytein s = { s with c := s.c + 65280, ct := 8 }) ∧
    (∀ cxs label, ∃ b s2 cxs2, JBIG2.decodeBit s cxs label = (b, s2, cxs2)) := by
  refine ⟨?_, ?_, ?_⟩
  · intro hge
    unfold JBIG2.mqByteAt
    rw [List.getD_eq_getElem?_getD, List.getElem?_eq_none hge]
    rfl
  · intro hff hnext
    unfold JBIG2.bytein
    rw [if_pos hff, if_pos (by omega)]
  · intro cxs label
    exact ⟨_, _, _, rfl⟩

/-- C8 witness: past the end of an empty buffer the fed byte is 0xFF, a
concrete state sitting on `FF 90` synthesizes 0xFF without advancing, and a
concrete `decodeBit` call on an exhausted stream still returns a bit. -/
theorem mq_bytein_end_of_data_total_witness :
    JBIG2.mqByteAt ([] : List Nat) 0 = 255 ∧
    JBIG2.bytein ⟨[255, 144], 0, 0, 0, 0⟩ =
      { JBIG2.MQDecoder.mk [255, 144] 0 0 0 0 with c := 0 + 65280, ct := 8 } ∧
    (∃ b s2 cxs2, JBIG2.decodeBit ⟨[], 0, 0, 0, 0⟩ [] 5 = (b, s2, cxs2)) :=
  ⟨(mq_bytein_end_of_data_total ⟨[], 0, 0, 0, 0⟩).1 (by decide),
    (mq_bytein_end_of_data_total ⟨[255, 144], 0, 0, 0, 0⟩).2.1 (by decide) (by decide),
    (mq_bytein_end_of_data_total ⟨[], 0, 0, 0, 0⟩).2.2 [] 5⟩
